import Mathlib

/-!
Verification of `dear_ros_node_viewer/graph_view.py` (`class GraphView`).

The file is a GUI wiring layer: every method reacts to an event by calling
into the Dear PyGui toolkit and into the repository's `GraphViewModel`.
We embed each method as an executable Lean function that returns the list
of external calls it performs (an `Effect` trace) together with any state
it updates.  Graph data (networkx `MultiDiGraph` with per-node attribute
dictionaries) is embedded as association lists; node `pos` lists, which are
mutable Python list objects, are embedded as heap addresses so that
aliasing between the graph storage and locally built dictionaries is
expressible.  Coordinates are rationals.
-/

namespace GraphView

/-- External calls performed by `GraphView` methods: calls into Dear PyGui
(`dpg.*`, drawn widgets, theme colors) and into the view model
(`zoom_inout`, `save_layout`, `update_font`, ...). -/
inductive Effect where
  | dpgNode (label : String) (pos : ℚ × ℚ)
  | addDpgNodeId (name : String) (nodeId : ℕ)
  | addDpgNodeColor (name : String) (themeColorId : ℕ)
  | addThemeColor (target : String) (color : List ℕ)
  | addNodeLink (srcNode srcAttr dstNode dstAttr : String)
  | addDpgEdgeColor (srcNode dstNode : String)
  | zoomInout (zoomIn : Bool)
  | saveLayout
  | loadLayout
  | copySelected
  | updateFont (fontId : ℕ)
  | displayCallbackgroup (active : Bool)
  | setItemLabel (label : String)
  | saveSVG (filename : String)
  | showMessageBox (message : String)
  | logError (message : String)
  | other (tag : String)
  deriving DecidableEq, Repr

/-- First-match association-list lookup, the evaluation of `d[k]` on the
Python dictionaries we embed as lists of pairs. -/
def alist_lookup {α β : Type} [DecidableEq α] (a : α) : List (α × β) → Option β
  | [] => none
  | (b, v) :: rest => if b = a then some v else alist_lookup a rest

/-- Attributes of one networkx node as used by `graph_view.py`: the stored
normalized position `pos` and the optional `color` attribute. -/
structure NodeAttrs where
  pos : ℚ × ℚ
  color : Option (List ℕ)
  deriving DecidableEq, Repr

/-- The loaded graph: node attribute dictionary and edge list.  An edge is
`(source, dest, optional label)`, the label being the `'label'` key of the
networkx edge attribute dictionary. -/
structure Graph where
  nodes : List (String × NodeAttrs)
  edges : List (String × String × Option String)
  deriving DecidableEq, Repr

/-- `GraphView.COLOR_NODE_SELECTED = [0, 0, 64]`. -/
def COLOR_NODE_SELECTED : List ℕ := [0, 0, 64]

/-- `GraphView.COLOR_NODE_BAR = [32, 32, 32]`. -/
def COLOR_NODE_BAR : List ℕ := [32, 32, 32]

/-- `GraphView.COLOR_NODE_BACK = [64, 64, 64]`. -/
def COLOR_NODE_BACK : List ℕ := [64, 64, 64]

/-! ### `add_node_in_dpg` -/

/-- The body of the `for node_name in graph.nodes` loop of
`add_node_in_dpg`, for one node: it computes the screen position
`[pos[0] * graph_size[0], pos[1] * graph_size[1]]`, allocates the dpg node
widget, registers the widget id with the view model
(`add_dpg_node_id`), adds the three theme colors (title bar uses the
node's `color` attribute when present, `COLOR_NODE_BAR` otherwise),
registers the background theme-color id (`add_dpg_node_color`), binds the
theme and click handler and adds the node attributes.  `c` is the next
fresh dpg widget id: the node widget gets id `c` and the background
theme color gets id `c + 4`. -/
def node_block (gsize : ℚ × ℚ) (c : ℕ) (name : String) (attrs : NodeAttrs) :
    List Effect :=
  [ Effect.dpgNode name (attrs.pos.1 * gsize.1, attrs.pos.2 * gsize.2),
    Effect.addDpgNodeId name c,
    Effect.addThemeColor "mvNodeCol_TitleBar" (attrs.color.getD COLOR_NODE_BAR),
    Effect.addThemeColor "mvNodeCol_NodeBackgroundSelected" COLOR_NODE_SELECTED,
    Effect.addThemeColor "mvNodeCol_NodeBackground" COLOR_NODE_BACK,
    Effect.addDpgNodeColor name (c + 4),
    Effect.other "bind_item_theme",
    Effect.other "add_item_clicked_handler",
    Effect.other "add_node_attr_in_dpg",
    Effect.displayCallbackgroup false ]

/-- The `for node_name in graph.nodes` loop of `add_node_in_dpg`, threading
the fresh-id counter (each iteration allocates six dpg ids). -/
def add_node_in_dpg_go (gsize : ℚ × ℚ) :
    ℕ → List (String × NodeAttrs) → List Effect
  | _, [] => []
  | c, (name, attrs) :: rest =>
      node_block gsize c name attrs ++ add_node_in_dpg_go gsize (c + 6) rest

/-- `GraphView.add_node_in_dpg`: iterate over the graph nodes, then call
`update_nodename` and `update_edgename` with `OmitType.LAST`. -/
def add_node_in_dpg (gsize : ℚ × ℚ) (nodes : List (String × NodeAttrs)) :
    List Effect :=
  add_node_in_dpg_go gsize 0 nodes ++
    [Effect.other "update_nodename_LAST", Effect.other "update_edgename_LAST"]

/-- Does this effect register a widget id for node `name` with the view
model (`add_dpg_node_id(name, ...)`)? -/
def is_add_node_id_for (name : String) : Effect → Bool
  | Effect.addDpgNodeId n _ => n == name
  | _ => false

/-- Does this effect register a background theme-color id for node `name`
(`add_dpg_node_color(name, ...)`)? -/
def is_add_node_color_for (name : String) : Effect → Bool
  | Effect.addDpgNodeColor n _ => n == name
  | _ => false

/-- The mapping entry recorded by one effect, if any: an
`add_dpg_node_id(n, i)` call records `n ↦ i`. -/
def bind_entry : Effect → Option (String × ℕ)
  | Effect.addDpgNodeId n i => some (n, i)
  | _ => none

/-- Modelled from the spec: the view model keeps a mapping between logical
graph entities and their visual widget identities, and
`GraphViewModel.add_dpg_node_id(name, id)` (code outside `src/`) records
the entry `name ↦ id` in it.  This collects a trace into that mapping. -/
def dpg_bind_node_id (tr : List Effect) : List (String × ℕ) :=
  tr.filterMap bind_entry

/-! ### `add_link_in_dpg` -/

/-- Result of running Python code that can raise: `error` carries the
exception name. -/
def except_ok {ε α : Type} : Except ε α → Bool
  | Except.ok _ => true
  | Except.error _ => false

/-- Does the source node of edge `e` exist and carry a `'color'`
attribute?  (`'color' in graph.nodes[e[0]]`.) -/
def edge_src_has_color (g : Graph) (e : String × String × Option String) : Bool :=
  match alist_lookup e.1 g.nodes with
  | some attrs => attrs.color.isSome
  | none => false

/-- The `for edge in graph.edges` loop of `add_link_in_dpg`: each
iteration adds the dpg node link (using the edge's `'label'` when present,
`'out'`/`'in'` otherwise), then reads `graph.nodes[edge[0]]['color']`
unconditionally to color the link — a read that raises `KeyError` when the
source node has no `'color'` attribute (or no such node exists) — and
registers the edge color with the view model. -/
def link_effs (src dst : String) (lbl : Option String) : List Effect :=
  match lbl with
  | some label => [Effect.addNodeLink src label dst label,
                   Effect.other "add_dpg_id_edge"]
  | none => [Effect.addNodeLink src "out" dst "in"]

def add_link_in_dpg_go (g : Graph) :
    List (String × String × Option String) → Except String (List Effect)
  | [] => Except.ok []
  | (src, dst, lbl) :: rest =>
      match alist_lookup src g.nodes with
      | none => Except.error "KeyError"
      | some attrs =>
          match attrs.color with
          | none => Except.error "KeyError"
          | some c =>
              match add_link_in_dpg_go g rest with
              | Except.ok effs =>
                  Except.ok (link_effs src dst lbl ++
                    [Effect.addThemeColor "mvNodeCol_Link" c,
                     Effect.addDpgEdgeColor src dst] ++ effs)
              | Except.error e => Except.error e

/-- `GraphView.add_link_in_dpg`. -/
def add_link_in_dpg (g : Graph) : Except String (List Effect) :=
  add_link_in_dpg_go g g.edges

/-! ### Wheel, key press and simple menu callbacks -/

/-- `GraphView._cb_wheel`: `self.graph_viewmodel.zoom_inout(app_data > 0)`
and nothing else. -/
def cb_wheel (app_data : ℤ) : List Effect :=
  [Effect.zoomInout (decide (0 < app_data))]

/-- `GraphView._cb_menu_layout_reset`. -/
def cb_menu_layout_reset : List Effect := [Effect.other "reset_layout"]

/-- `GraphView._cb_menu_layout_save`: `self.graph_viewmodel.save_layout()`. -/
def cb_menu_layout_save : List Effect := [Effect.saveLayout]

/-- `GraphView._cb_menu_layout_load`: `self.graph_viewmodel.load_layout()`. -/
def cb_menu_layout_load : List Effect := [Effect.loadLayout]

/-- `GraphView._cb_menu_copy`:
`self.graph_viewmodel.copy_selected_node_name(...)`. -/
def cb_menu_copy : List Effect := [Effect.copySelected]

/-- Dear PyGui key code `dpg.mvKey_S`. -/
def mvKey_S : ℕ := 83

/-- Dear PyGui key code `dpg.mvKey_L`. -/
def mvKey_L : ℕ := 76

/-- Dear PyGui key code `dpg.mvKey_C`. -/
def mvKey_C : ℕ := 67

/-- `GraphView._cb_key_press`: dispatch on the pressed key; no `else`
branch, so any other key performs nothing. -/
def cb_key_press (app_data : ℕ) : List Effect :=
  if app_data = mvKey_S then cb_menu_layout_save
  else if app_data = mvKey_L then cb_menu_layout_load
  else if app_data = mvKey_C then cb_menu_copy
  else []

/-- The items of the `Layout` menu built by `add_menu_in_dpg`
(label, callback). -/
def layout_menu_items : List (String × List Effect) :=
  [("Reset", cb_menu_layout_reset),
   ("Save", cb_menu_layout_save),
   ("Load", cb_menu_layout_load)]

/-- `min_value` of the `Font Size` slider in `add_menu_in_dpg`. -/
def font_slider_min_value : ℕ := 8

/-- `max_value` of the `Font Size` slider in `add_menu_in_dpg`. -/
def font_slider_max_value : ℕ := 40

/-! ### Font size handling -/

/-- The `GraphView` fields touched by `_cb_menu_font_size`:
`self.font_size` and `self.font_list` (size ↦ dpg font id). -/
structure FontState where
  font_size : ℕ
  font_list : List (ℕ × ℕ)
  deriving DecidableEq, Repr

/-- `GraphView._cb_menu_font_size`: store `app_data` in `self.font_size`;
call `update_font` only when the chosen size is a key of
`self.font_list`. -/
def cb_menu_font_size (st : FontState) (app_data : ℕ) :
    FontState × List Effect :=
  let st2 := { st with font_size := app_data }
  match alist_lookup app_data st.font_list with
  | some fid => (st2, [Effect.updateFont fid])
  | none => (st2, [])

/-- One `dpg.add_font(font_path, i)` call: `some id` on success, `none`
when the toolkit raises `SystemError`. -/
def FontLoader : Type := ℕ → Option ℕ

/-- The `for i in range(8, 40)` loop of `_make_font_table`: on success
store the font under its size, on `SystemError` log the error and
continue with the next size. -/
def make_font_table_go (load : FontLoader) :
    List ℕ → List (ℕ × ℕ) × List Effect
  | [] => ([], [])
  | i :: rest =>
      let r := make_font_table_go load rest
      match load i with
      | some fid => ((i, fid) :: r.1, r.2)
      | none => (r.1, Effect.logError "Failed to load font" :: r.2)

/-- `GraphView._make_font_table`: try sizes `range(8, 40)`, i.e. 8..39. -/
def make_font_table (load : FontLoader) : List (ℕ × ℕ) × List Effect :=
  make_font_table_go load (List.range' 8 32)

/-! ### CARET callback-group toggle -/

/-- The state read and written by `_cb_menu_caret_callbackbroup`: the
label of the sending menu item (`dpg.get_item_label(sender)`) and whether
the callback groups are displayed (the argument last passed to
`display_callbackgroup`). -/
structure CaretMenuState where
  label : String
  callbackgroup_shown : Bool
  deriving DecidableEq, Repr

/-- `GraphView._cb_menu_caret_callbackbroup`: when the sender's label is
`'Show Callback'`, display the callback groups and relabel the sender
`'Hide Callback'`; otherwise hide them and relabel the sender
`'Show Callback'`. -/
def cb_menu_caret_callbackbroup (s : CaretMenuState) :
    CaretMenuState × List Effect :=
  if s.label = "Show Callback" then
    (⟨"Hide Callback", true⟩,
     [Effect.displayCallbackgroup true, Effect.setItemLabel "Hide Callback"])
  else
    (⟨"Show Callback", false⟩,
     [Effect.displayCallbackgroup false, Effect.setItemLabel "Show Callback"])

/-! ### SVG export -/

/-- A graph whose node `pos` lists are embedded as heap addresses:
`nodes` maps each node name to the address of its position list, `heap`
maps addresses to the list contents `(x, y)`.  Two dictionaries that hold
the same address alias the same mutable Python list. -/
structure HeapGraph where
  nodes : List (String × ℕ)
  heap : List (ℕ × (ℚ × ℚ))
  deriving DecidableEq, Repr

/-- In-place update `lst[1] = 1 - lst[1]` of the position list at address
`a` (first matching heap cell). -/
def heap_update_y (a : ℕ) : List (ℕ × (ℚ × ℚ)) → List (ℕ × (ℚ × ℚ))
  | [] => []
  | (b, p) :: rest =>
      if b = a then (b, (p.1, 1 - p.2)) :: rest
      else (b, p) :: heap_update_y a rest

/-- The `for node in pos: pos[node][1] = 1 - pos[node][1]` loop of
`_cb_create_graph`.  `pos` holds the same addresses as the graph's node
storage, so each write mutates the stored list. -/
def reverse_y_loop : List (String × ℕ) → List (ℕ × (ℚ × ℚ)) →
    List (ℕ × (ℚ × ℚ))
  | [], h => h
  | (_, a) :: rest, h => reverse_y_loop rest (heap_update_y a h)

/-- `GraphView._cb_create_graph(graph_type, output)` after the graph has
been (re)loaded: it builds the dictionary comprehension
`pos`, mapping each node to `graph.nodes[node]['pos']` — a
dictionary holding the very `pos` list objects the graph stores — then
reverses the y-coordinates through those aliases, draws the figure with
matplotlib or networkx according to `graph_type`, and saves it to
`output` in SVG format. -/
def cb_create_graph (graph_type output : String) (loaded : HeapGraph) :
    HeapGraph × List Effect :=
  let pos := loaded.nodes
  let heap2 := reverse_y_loop pos loaded.heap
  (⟨loaded.nodes, heap2⟩,
    [Effect.other "load_graph", Effect.other "update_node_editor"] ++
      (if graph_type = "node:matplotlib" then [Effect.other "draw_matplotlib"]
       else [Effect.other "draw_networkx"]) ++
      [Effect.saveSVG output])

/-- `GraphView._open_file_dialog(graph_type)`: ask for a save filename;
`filename` is `""` when the dialog is cancelled (`if filename:` guards the
export). -/
def open_file_dialog (graph_type : String) (filename : String)
    (loaded : HeapGraph) : HeapGraph × List Effect :=
  if filename ≠ "" then cb_create_graph graph_type filename loaded
  else (loaded, [])

/-- `GraphView._cb_menu_nodes_matplotlib_graph`. -/
def cb_menu_nodes_matplotlib_graph (filename : String) (loaded : HeapGraph) :
    HeapGraph × List Effect :=
  open_file_dialog "node:matplotlib" filename loaded

/-- `GraphView._cb_menu_nodes_networkx_graph`. -/
def cb_menu_nodes_networkx_graph (filename : String) (loaded : HeapGraph) :
    HeapGraph × List Effect :=
  open_file_dialog "node:networkx" filename loaded

/-- `GraphView._cb_menu_nodes_topics_graph`: only shows a message box. -/
def cb_menu_nodes_topics_graph : List Effect :=
  [Effect.showMessageBox "Not supported yet"]

/-! ### Helper lemmas -/

lemma make_font_table_go_lookup (load : FontLoader) :
    ∀ l : List ℕ, l.Nodup → ∀ i : ℕ,
      alist_lookup i (make_font_table_go load l).1 =
        if i ∈ l then load i else none := by
  intro l
  induction l with
  | nil => intro _ i; simp [make_font_table_go, alist_lookup]
  | cons j rest ih =>
      intro h i
      have hj : j ∉ rest := (List.nodup_cons.mp h).1
      have hrest := (List.nodup_cons.mp h).2
      by_cases hij : i = j
      · subst hij
        cases hload : load i with
        | some fid => simp [make_font_table_go, hload, alist_lookup]
        | none =>
            have hni : i ∉ rest := hj
            simp [make_font_table_go, hload, ih hrest i, hni]
      · cases hload : load j with
        | some fid =>
            simp [make_font_table_go, hload, alist_lookup, ih hrest i,
              List.mem_cons, hij, Ne.symm hij]
        | none =>
            simp [make_font_table_go, hload, ih hrest i, List.mem_cons, hij]

lemma make_font_table_go_log (load : FontLoader) :
    ∀ l : List ℕ,
      (make_font_table_go load l).2.length =
          l.countP (fun i => (load i).isNone) ∧
        ∀ e ∈ (make_font_table_go load l).2,
          e = Effect.logError "Failed to load font" := by
  intro l
  induction l with
  | nil => simp [make_font_table_go]
  | cons j rest ih =>
      cases hload : load j with
      | some fid =>
          simpa [make_font_table_go, hload, List.countP_cons] using ih
      | none =>
          refine ⟨?_, ?_⟩
          · simp [make_font_table_go, hload, List.countP_cons, ih.1]
          · intro e he
            rw [make_font_table_go] at he
            simp only [hload] at he
            rcases List.mem_cons.mp he with h | h
            · exact h
            · exact ih.2 e h

lemma make_font_table_lookup (load : FontLoader) (i : ℕ) :
    alist_lookup i (make_font_table load).1 =
      if 8 ≤ i ∧ i < 40 then load i else none := by
  rw [make_font_table,
    make_font_table_go_lookup load _ (List.nodup_range' 8 32) i]
  by_cases hi : 8 ≤ i ∧ i < 40
  · rw [if_pos (List.mem_range'_1.mpr (by omega)), if_pos hi]
  · rw [if_neg (fun hm => hi (by have := List.mem_range'_1.mp hm; omega)),
      if_neg hi]

lemma countP_id_node_block (name : String) (gsize : ℚ × ℚ) (c : ℕ)
    (nm : String) (attrs : NodeAttrs) :
    List.countP (is_add_node_id_for name) (node_block gsize c nm attrs) =
      if nm == name then 1 else 0 := by
  cases h : nm == name <;>
    simp [node_block, is_add_node_id_for, List.countP_cons, h]

lemma countP_color_node_block (name : String) (gsize : ℚ × ℚ) (c : ℕ)
    (nm : String) (attrs : NodeAttrs) :
    List.countP (is_add_node_color_for name) (node_block gsize c nm attrs) =
      if nm == name then 1 else 0 := by
  cases h : nm == name <;>
    simp [node_block, is_add_node_color_for, List.countP_cons, h]

lemma countP_id_go (name : String) (gsize : ℚ × ℚ) :
    ∀ (c : ℕ) (ns : List (String × NodeAttrs)),
      List.countP (is_add_node_id_for name) (add_node_in_dpg_go gsize c ns) =
        (ns.map Prod.fst).count name := by
  intro c ns
  induction ns generalizing c with
  | nil => simp [add_node_in_dpg_go]
  | cons p rest ih =>
      obtain ⟨nm, attrs⟩ := p
      rw [add_node_in_dpg_go, List.countP_append, countP_id_node_block, ih]
      simp only [List.map_cons, List.count_cons]
      cases h : nm == name <;> simp [h] <;> omega

lemma countP_color_go (name : String) (gsize : ℚ × ℚ) :
    ∀ (c : ℕ) (ns : List (String × NodeAttrs)),
      List.countP (is_add_node_color_for name) (add_node_in_dpg_go gsize c ns) =
        (ns.map Prod.fst).count name := by
  intro c ns
  induction ns generalizing c with
  | nil => simp [add_node_in_dpg_go]
  | cons p rest ih =>
      obtain ⟨nm, attrs⟩ := p
      rw [add_node_in_dpg_go, List.countP_append, countP_color_node_block, ih]
      simp only [List.map_cons, List.count_cons]
      cases h : nm == name <;> simp [h] <;> omega

lemma countP_id_add_node (name : String) (gsize : ℚ × ℚ)
    (ns : List (String × NodeAttrs)) :
    List.countP (is_add_node_id_for name) (add_node_in_dpg gsize ns) =
      (ns.map Prod.fst).count name := by
  rw [add_node_in_dpg, List.countP_append, countP_id_go]
  simp [is_add_node_id_for, List.countP_cons]

lemma countP_color_add_node (name : String) (gsize : ℚ × ℚ)
    (ns : List (String × NodeAttrs)) :
    List.countP (is_add_node_color_for name) (add_node_in_dpg gsize ns) =
      (ns.map Prod.fst).count name := by
  rw [add_node_in_dpg, List.countP_append, countP_color_go]
  simp [is_add_node_color_for, List.countP_cons]

lemma add_node_id_mem_go (gsize : ℚ × ℚ) (name : String) :
    ∀ (c : ℕ) (ns : List (String × NodeAttrs)), name ∈ ns.map Prod.fst →
      ∃ i, Effect.addDpgNodeId name i ∈ add_node_in_dpg_go gsize c ns := by
  intro c ns
  induction ns generalizing c with
  | nil => simp
  | cons p rest ih =>
      obtain ⟨nm, attrs⟩ := p
      intro h
      rw [List.map_cons] at h
      rcases List.mem_cons.mp h with h | h
      · subst h
        exact ⟨c, List.mem_append_left _ (by simp [node_block])⟩
      · obtain ⟨i, hi⟩ := ih (c + 6) h
        exact ⟨i, List.mem_append_right _ hi⟩

lemma alist_lookup_isSome_of_mem {α β : Type} [DecidableEq α]
    {name : α} {v : β} :
    ∀ l : List (α × β), (name, v) ∈ l →
      (alist_lookup name l).isSome = true := by
  intro l
  induction l with
  | nil => simp
  | cons p rest ih =>
      intro h
      obtain ⟨b, w⟩ := p
      rcases List.mem_cons.mp h with h | h
      · cases h; simp [alist_lookup]
      · by_cases hb : b = name
        · simp [alist_lookup, hb]
        · simp [alist_lookup, hb, ih h]

lemma dpgNode_mem_go (gsize : ℚ × ℚ) :
    ∀ (c : ℕ) (ns : List (String × NodeAttrs)) (name : String)
      (attrs : NodeAttrs), (name, attrs) ∈ ns →
      Effect.dpgNode name (attrs.pos.1 * gsize.1, attrs.pos.2 * gsize.2) ∈
        add_node_in_dpg_go gsize c ns := by
  intro c ns
  induction ns generalizing c with
  | nil => simp
  | cons p rest ih =>
      obtain ⟨nm, nattrs⟩ := p
      intro name attrs h
      rcases List.mem_cons.mp h with h | h
      · cases h
        exact List.mem_append_left _ (by simp [node_block])
      · exact List.mem_append_right _ (ih (c + 6) name attrs h)

lemma dpgNode_mem_go_inv (gsize : ℚ × ℚ) :
    ∀ (c : ℕ) (ns : List (String × NodeAttrs)) (name : String) (p : ℚ × ℚ),
      Effect.dpgNode name p ∈ add_node_in_dpg_go gsize c ns →
      ∃ attrs, (name, attrs) ∈ ns ∧
        p = (attrs.pos.1 * gsize.1, attrs.pos.2 * gsize.2) := by
  intro c ns
  induction ns generalizing c with
  | nil => simp [add_node_in_dpg_go]
  | cons q rest ih =>
      obtain ⟨nm, nattrs⟩ := q
      intro name p h
      rw [add_node_in_dpg_go] at h
      rcases List.mem_append.mp h with h | h
      · have h2 : name = nm ∧
            p = (nattrs.pos.1 * gsize.1, nattrs.pos.2 * gsize.2) := by
          simpa [node_block] using h
        exact ⟨nattrs, by simp [h2.1], h2.2⟩
      · obtain ⟨attrs, hmem, hp⟩ := ih (c + 6) name p h
        exact ⟨attrs, List.mem_cons_of_mem _ hmem, hp⟩

/-! ### Claim theorems -/

/-- C3: during `_make_font_table`, every size `i` with `8 ≤ i ≤ 39` whose
font loads successfully is stored in `font_list` under its size, sizes
outside that range are absent, a size whose load raises `SystemError` is
left out with the error logged (one log entry per failing size, and every
emitted effect is that log), and — the embedding being a total function —
no `SystemError` escapes `_make_font_table`. -/
theorem claim_C3_font_table (load : FontLoader) (i : ℕ) :
    (alist_lookup i (make_font_table load).1 =
      if 8 ≤ i ∧ i < 40 then load i else none) ∧
    ((make_font_table load).2.length =
      (List.range' 8 32).countP (fun j => (load j).isNone)) ∧
    (∀ e ∈ (make_font_table load).2,
      e = Effect.logError "Failed to load font") := by
  refine ⟨make_font_table_lookup load i, ?_, ?_⟩
  · exact (make_font_table_go_log load _).1
  · exact (make_font_table_go_log load _).2

/-- A font loader on which exactly size 15 fails with `SystemError`. -/
def font_loader_fails_15 : FontLoader :=
  fun j => if j = 15 then none else some (j + 100)

/-- C3 witness: with a loader failing only at size 15, size 15 is absent
from the table, size 20 is stored, and exactly one error is logged. -/
theorem claim_C3_font_table_witness :
    alist_lookup 15 (make_font_table font_loader_fails_15).1 = none ∧
    alist_lookup 20 (make_font_table font_loader_fails_15).1 = some 120 ∧
    (make_font_table font_loader_fails_15).2.length = 1 := by
  refine ⟨?_, ?_, ?_⟩
  · exact ((claim_C3_font_table font_loader_fails_15 15).1).trans (by decide)
  · exact ((claim_C3_font_table font_loader_fails_15 20).1).trans (by decide)
  · exact ((claim_C3_font_table font_loader_fails_15 0).2.1).trans (by decide)

/-- C4: `_cb_wheel` zooms in (calls `zoom_inout(True)`) exactly when the
wheel delta is strictly positive, zooms out (`zoom_inout(False)`)
otherwise — including delta zero — and its trace is that single view-model
call and nothing else. -/
theorem claim_C4_wheel_zoom (d : ℤ) :
    (cb_wheel d = [Effect.zoomInout true] ↔ 0 < d) ∧
    (cb_wheel d = [Effect.zoomInout false] ↔ d ≤ 0) ∧
    (cb_wheel d).length = 1 ∧
    (∀ e ∈ cb_wheel d, ∃ b, e = Effect.zoomInout b) := by
  refine ⟨?_, ?_, rfl, ?_⟩
  · simp [cb_wheel]
  · simp [cb_wheel, not_lt]
  · intro e he
    simp only [cb_wheel, List.mem_singleton] at he
    exact ⟨_, he⟩

/-- C4 witness: delta 3 zooms in, delta 0 zooms out, and the delta-0 trace
contains only `zoom_inout` calls. -/
theorem claim_C4_wheel_zoom_witness :
    cb_wheel 3 = [Effect.zoomInout true] ∧
    cb_wheel 0 = [Effect.zoomInout false] ∧
    ∃ b, Effect.zoomInout false = Effect.zoomInout b :=
  ⟨(claim_C4_wheel_zoom 3).1.mpr (by decide),
   (claim_C4_wheel_zoom 0).2.1.mpr (by decide),
   (claim_C4_wheel_zoom 0).2.2.2 (Effect.zoomInout false)
     (by rw [(claim_C4_wheel_zoom 0).2.1.mpr (by decide)]; exact List.mem_singleton_self _)⟩

/-- C2 counterexample: the claim asserts that for every starting label two
invocations of `_cb_menu_caret_callbackbroup` restore the sender's label
and the display state; starting from label `"X"` with the groups shown,
two invocations end with label `"Hide Callback"` and so restore neither. -/
theorem claim_C2_counterexample :
    ¬ ((cb_menu_caret_callbackbroup
          (cb_menu_caret_callbackbroup ⟨"X", true⟩).1).1 =
        (⟨"X", true⟩ : CaretMenuState)) := by
  decide

/-- C2 (amended): one invocation with label `'Show Callback'` displays the
callback groups and relabels the sender `'Hide Callback'`; with any other
label it hides them and relabels the sender `'Show Callback'`.  Two
invocations restore both the label and the display state provided the
start label is one of the two canonical labels and the display state is
consistent with it (shown exactly when the label is `'Hide Callback'`);
for any other label two invocations end at `'Hide Callback'`. -/
theorem claim_C2_toggle (s : CaretMenuState) :
    (s.label = "Show Callback" →
      cb_menu_caret_callbackbroup s =
        (⟨"Hide Callback", true⟩,
         [Effect.displayCallbackgroup true,
          Effect.setItemLabel "Hide Callback"])) ∧
    (s.label ≠ "Show Callback" →
      cb_menu_caret_callbackbroup s =
        (⟨"Show Callback", false⟩,
         [Effect.displayCallbackgroup false,
          Effect.setItemLabel "Show Callback"])) ∧
    ((s.label = "Show Callback" ∨ s.label = "Hide Callback") →
      s.callbackgroup_shown = (s.label == "Hide Callback") →
      (cb_menu_caret_callbackbroup (cb_menu_caret_callbackbroup s).1).1 = s) ∧
    (s.label ≠ "Show Callback" → s.label ≠ "Hide Callback" →
      (cb_menu_caret_callbackbroup
          (cb_menu_caret_callbackbroup s).1).1.label = "Hide Callback") := by
  obtain ⟨lab, shown⟩ := s
  refine ⟨?_, ?_, ?_, ?_⟩
  · intro h
    simp only at h
    subst h
    simp [cb_menu_caret_callbackbroup]
  · intro h
    simp only at h
    simp [cb_menu_caret_callbackbroup, h]
  · rintro (h | h) hc <;> simp only at h hc <;> subst h <;>
      simp only [String.reduceBEq] at hc <;> subst hc <;> decide
  · intro h1 h2
    simp only at h1 h2
    simp [cb_menu_caret_callbackbroup, h1]

/-- C2 witness: from the initial state (label `'Show Callback'`, groups
hidden) one invocation shows the groups and relabels; a second invocation
restores the initial state. -/
theorem claim_C2_toggle_witness :
    cb_menu_caret_callbackbroup ⟨"Show Callback", false⟩ =
      (⟨"Hide Callback", true⟩,
       [Effect.displayCallbackgroup true,
        Effect.setItemLabel "Hide Callback"]) ∧
    (cb_menu_caret_callbackbroup
        (cb_menu_caret_callbackbroup ⟨"Show Callback", false⟩).1).1 =
      (⟨"Show Callback", false⟩ : CaretMenuState) :=
  ⟨(claim_C2_toggle ⟨"Show Callback", false⟩).1 rfl,
   (claim_C2_toggle ⟨"Show Callback", false⟩).2.2.1 (Or.inl rfl) (by decide)⟩

/-- C7: pressing the S key runs exactly the callback of the `Save` menu
item, pressing L runs exactly the callback of the `Load` menu item, and a
key other than S, L and C runs nothing. -/
theorem claim_C7_key_routes (k : ℕ) :
    alist_lookup "Save" layout_menu_items = some (cb_key_press mvKey_S) ∧
    alist_lookup "Load" layout_menu_items = some (cb_key_press mvKey_L) ∧
    (k ≠ mvKey_S → k ≠ mvKey_L → k ≠ mvKey_C → cb_key_press k = []) := by
  refine ⟨by decide, by decide, ?_⟩
  intro h1 h2 h3
  simp [cb_key_press, h1, h2, h3]

/-- C7 witness: key code 0 (none of S, L, C) runs nothing. -/
theorem claim_C7_key_routes_witness : cb_key_press 0 = [] :=
  (claim_C7_key_routes 0).2.2 (by decide) (by decide) (by decide)

/-- C9: the font-size slider is built with `min_value=8`, `max_value=40`,
so size 40 is offered; yet for every loader the font table has no entry
for 40, so choosing 40 stores 40 in `font_size` and performs no
`update_font` call; likewise any chosen size absent from `font_list`
(e.g. a size whose load failed) updates the field and changes no font. -/
theorem claim_C9_size_40_silent (load : FontLoader) (st : FontState) (i : ℕ) :
    (font_slider_min_value ≤ 40 ∧ 40 ≤ font_slider_max_value) ∧
    (cb_menu_font_size { st with font_list := (make_font_table load).1 } 40 =
      ({ font_size := 40, font_list := (make_font_table load).1 }, [])) ∧
    (alist_lookup i st.font_list = none →
      cb_menu_font_size st i = ({ st with font_size := i }, [])) := by
  refine ⟨by decide, ?_, ?_⟩
  · have h40 : alist_lookup 40 (make_font_table load).1 = none := by
      rw [make_font_table_lookup]
      simp
    simp [cb_menu_font_size, h40]
  · intro h
    simp [cb_menu_font_size, h]

/-- C9 witness: with the loader failing only at size 15, choosing 40
updates `font_size` to 40 with no `update_font`; choosing 15 does the
same for 15. -/
theorem claim_C9_size_40_silent_witness :
    cb_menu_font_size
        { font_size := 15, font_list := (make_font_table font_loader_fails_15).1 } 40 =
      ({ font_size := 40, font_list := (make_font_table font_loader_fails_15).1 }, []) ∧
    cb_menu_font_size
        { font_size := 15, font_list := (make_font_table font_loader_fails_15).1 } 15 =
      ({ font_size := 15, font_list := (make_font_table font_loader_fails_15).1 }, []) :=
  ⟨(claim_C9_size_40_silent font_loader_fails_15
      { font_size := 15, font_list := (make_font_table font_loader_fails_15).1 } 0).2.1,
   (claim_C9_size_40_silent font_loader_fails_15
      { font_size := 15, font_list := (make_font_table font_loader_fails_15).1 } 15).2.2
     (by decide)⟩

/-- C5: completing the save dialog with a non-empty filename for graph
type `node:matplotlib` or `node:networkx` ends with the figure written to
that filename in SVG format; the `topics` item writes no file and only
shows a `'Not supported yet'` message box; a cancelled dialog (empty
filename) exports nothing. -/
theorem claim_C5_svg_export (filename : String) (g : HeapGraph) :
    (filename ≠ "" →
      Effect.saveSVG filename ∈ (cb_menu_nodes_matplotlib_graph filename g).2 ∧
      Effect.saveSVG filename ∈ (cb_menu_nodes_networkx_graph filename g).2) ∧
    (∀ f : String, Effect.saveSVG f ∉ cb_menu_nodes_topics_graph) ∧
    Effect.showMessageBox "Not supported yet" ∈ cb_menu_nodes_topics_graph ∧
    (∀ gt : String, open_file_dialog gt "" g = (g, [])) := by
  refine ⟨?_, ?_, ?_, ?_⟩
  · intro h
    constructor <;>
      simp [cb_menu_nodes_matplotlib_graph, cb_menu_nodes_networkx_graph,
        open_file_dialog, cb_create_graph, h]
  · intro f
    simp [cb_menu_nodes_topics_graph]
  · simp [cb_menu_nodes_topics_graph]
  · intro gt
    simp [open_file_dialog]

/-- C5 witness: exporting to `out.svg` via both node-diagram variants
saves `out.svg`, on the empty graph. -/
theorem claim_C5_svg_export_witness :
    Effect.saveSVG "out.svg" ∈
        (cb_menu_nodes_matplotlib_graph "out.svg" ⟨[], []⟩).2 ∧
    Effect.saveSVG "out.svg" ∈
        (cb_menu_nodes_networkx_graph "out.svg" ⟨[], []⟩).2 :=
  (claim_C5_svg_export "out.svg" ⟨[], []⟩).1 (by decide)

/-- C1: for every node name of the loaded graph (node names are the keys
of the networkx node dictionary, hence pairwise distinct),
`add_node_in_dpg` performs exactly one `add_dpg_node_id` call and exactly
one `add_dpg_node_color` call carrying that name, so the view model's
entity-to-widget mapping afterwards contains an entry for every graph
node. -/
theorem claim_C1_register_once (gsize : ℚ × ℚ)
    (nodes : List (String × NodeAttrs))
    (hnodup : (nodes.map Prod.fst).Nodup) (name : String)
    (hmem : name ∈ nodes.map Prod.fst) :
    List.countP (is_add_node_id_for name) (add_node_in_dpg gsize nodes) = 1 ∧
    List.countP (is_add_node_color_for name)
        (add_node_in_dpg gsize nodes) = 1 ∧
    (alist_lookup name
        (dpg_bind_node_id (add_node_in_dpg gsize nodes))).isSome = true := by
  refine ⟨?_, ?_, ?_⟩
  · rw [countP_id_add_node]
    exact List.count_eq_one_of_mem hnodup hmem
  · rw [countP_color_add_node]
    exact List.count_eq_one_of_mem hnodup hmem
  · obtain ⟨i, hi⟩ := add_node_id_mem_go gsize name 0 nodes hmem
    have hmem2 : (name, i) ∈ dpg_bind_node_id (add_node_in_dpg gsize nodes) :=
      List.mem_filterMap.mpr
        ⟨Effect.addDpgNodeId name i,
         List.mem_append_left _ hi, rfl⟩
    exact alist_lookup_isSome_of_mem _ hmem2

/-- C1 witness: a concrete two-node graph; node `"b"` is registered
exactly once with its widget id and once with its theme-color id, and the
mapping holds an entry for it. -/
theorem claim_C1_register_once_witness :
    List.countP (is_add_node_id_for "b")
        (add_node_in_dpg (1, 1)
          [("a", ⟨(0, 0), none⟩), ("b", ⟨(1, 1), some [5, 5, 5]⟩)]) = 1 ∧
    List.countP (is_add_node_color_for "b")
        (add_node_in_dpg (1, 1)
          [("a", ⟨(0, 0), none⟩), ("b", ⟨(1, 1), some [5, 5, 5]⟩)]) = 1 ∧
    (alist_lookup "b"
        (dpg_bind_node_id (add_node_in_dpg (1, 1)
          [("a", ⟨(0, 0), none⟩),
           ("b", ⟨(1, 1), some [5, 5, 5]⟩)]))).isSome = true :=
  claim_C1_register_once (1, 1)
    [("a", ⟨(0, 0), none⟩), ("b", ⟨(1, 1), some [5, 5, 5]⟩)]
    (by decide) "b" (by decide)

/-- C6: in `add_node_in_dpg`, the widget created for node `n` is placed at
the screen position obtained by scaling the node's stored normalized
position componentwise by the current graph size — and every node widget
the method creates is placed that way. -/
theorem claim_C6_pos_screen (gsize : ℚ × ℚ)
    (nodes : List (String × NodeAttrs)) :
    (∀ name attrs, (name, attrs) ∈ nodes →
      Effect.dpgNode name (attrs.pos.1 * gsize.1, attrs.pos.2 * gsize.2) ∈
        add_node_in_dpg gsize nodes) ∧
    (∀ name p, Effect.dpgNode name p ∈ add_node_in_dpg gsize nodes →
      ∃ attrs, (name, attrs) ∈ nodes ∧
        p = (attrs.pos.1 * gsize.1, attrs.pos.2 * gsize.2)) := by
  constructor
  · intro name attrs h
    exact List.mem_append_left _ (dpgNode_mem_go gsize 0 nodes name attrs h)
  · intro name p h
    rcases List.mem_append.mp h with h | h
    · exact dpgNode_mem_go_inv gsize 0 nodes name p h
    · simp at h

/-- C6 witness: node `"a"` with stored position `(1, 2)` and graph size
`(3, 5)` is created at screen position `(1 * 3, 2 * 5)`. -/
theorem claim_C6_pos_screen_witness :
    Effect.dpgNode "a" ((1 : ℚ) * 3, (2 : ℚ) * 5) ∈
      add_node_in_dpg (3, 5) [("a", ⟨(1, 2), none⟩)] :=
  (claim_C6_pos_screen (3, 5) [("a", ⟨(1, 2), none⟩)]).1
    "a" ⟨(1, 2), none⟩ (List.mem_singleton_self _)

lemma add_link_go_cons (g : Graph) (e : String × String × Option String)
    (rest : List (String × String × Option String)) :
    except_ok (add_link_in_dpg_go g (e :: rest)) =
      (edge_src_has_color g e && except_ok (add_link_in_dpg_go g rest)) := by
  obtain ⟨src, dst, lbl⟩ := e
  rw [add_link_in_dpg_go]
  cases hsrc : alist_lookup src g.nodes with
  | none => simp [except_ok, edge_src_has_color, hsrc]
  | some attrs =>
      cases hcol : attrs.color with
      | none => simp [except_ok, edge_src_has_color, hsrc, hcol]
      | some col =>
          cases hgo : add_link_in_dpg_go g rest with
          | ok effs => simp [except_ok, edge_src_has_color, hsrc, hcol, hgo]
          | error err => simp [except_ok, edge_src_has_color, hsrc, hcol, hgo]

lemma add_link_go_ok_iff (g : Graph) :
    ∀ es : List (String × String × Option String),
      except_ok (add_link_in_dpg_go g es) = true ↔
        ∀ e ∈ es, edge_src_has_color g e = true := by
  intro es
  induction es with
  | nil => simp [add_link_in_dpg_go, except_ok]
  | cons e rest ih =>
      rw [add_link_go_cons, Bool.and_eq_true, ih, List.forall_mem_cons]

lemma add_link_go_error (g : Graph) :
    ∀ (pre : List (String × String × Option String))
      (e : String × String × Option String)
      (post : List (String × String × Option String)),
      (∀ p ∈ pre, edge_src_has_color g p = true) →
      edge_src_has_color g e = false →
      add_link_in_dpg_go g (pre ++ e :: post) = Except.error "KeyError" := by
  intro pre
  induction pre with
  | nil =>
      intro e post _ he
      obtain ⟨src, dst, lbl⟩ := e
      rw [List.nil_append, add_link_in_dpg_go]
      cases hsrc : alist_lookup src g.nodes with
      | none => rfl
      | some attrs =>
          cases hcol : attrs.color with
          | none => simp [hcol]
          | some col => simp [edge_src_has_color, hsrc, hcol] at he
  | cons q pre ih =>
      intro e post hpre he
      obtain ⟨src, dst, lbl⟩ := q
      have hq := hpre _ (List.mem_cons_self _ _)
      rw [List.cons_append, add_link_in_dpg_go]
      cases hsrc : alist_lookup src g.nodes with
      | none => simp [edge_src_has_color, hsrc] at hq
      | some attrs =>
          cases hcol : attrs.color with
          | none => simp [edge_src_has_color, hsrc, hcol] at hq
          | some col =>
              rw [ih e post (fun p hp => hpre p (List.mem_cons_of_mem _ hp)) he]
              simp [hcol]

/-- C10: `add_link_in_dpg` reads `graph.nodes[edge[0]]['color']`
unconditionally, so it completes without error exactly when every edge's
source node carries a `'color'` attribute, and raises `KeyError` whenever
some prefix of well-colored edges is followed by an edge whose source
lacks one — whereas `add_node_in_dpg` tolerates a node without `'color'`
by using the `COLOR_NODE_BAR` fallback for its title bar. -/
theorem claim_C10_link_color_precondition (g : Graph) (gsize : ℚ × ℚ)
    (c : ℕ) (nm : String) (attrs : NodeAttrs) :
    (except_ok (add_link_in_dpg g) = true ↔
      ∀ e ∈ g.edges, edge_src_has_color g e = true) ∧
    (∀ pre e post, g.edges = pre ++ e :: post →
      (∀ p ∈ pre, edge_src_has_color g p = true) →
      edge_src_has_color g e = false →
      add_link_in_dpg g = Except.error "KeyError") ∧
    (attrs.color = none →
      Effect.addThemeColor "mvNodeCol_TitleBar" COLOR_NODE_BAR ∈
        node_block gsize c nm attrs) := by
  refine ⟨add_link_go_ok_iff g g.edges, ?_, ?_⟩
  · intro pre e post hsplit hpre he
    rw [add_link_in_dpg, hsplit]
    exact add_link_go_error g pre e post hpre he
  · intro h
    simp [node_block, h]

/-- A concrete graph whose second edge's source node `"a"` carries no
`'color'` attribute while the first edge's source `"b"` does. -/
def graph_missing_color : Graph :=
  { nodes := [("a", ⟨(0, 0), none⟩), ("b", ⟨(0, 0), some [1, 2, 3]⟩)],
    edges := [("b", "a", none), ("a", "b", some "topic")] }

/-- C10 witness: on `graph_missing_color`, `add_link_in_dpg` raises
`KeyError` at the second edge, and `add_node_in_dpg`'s per-node block
falls back to `COLOR_NODE_BAR` for the uncolored node. -/
theorem claim_C10_link_color_precondition_witness :
    add_link_in_dpg graph_missing_color = Except.error "KeyError" ∧
    Effect.addThemeColor "mvNodeCol_TitleBar" COLOR_NODE_BAR ∈
      node_block (1, 1) 0 "a" ⟨(0, 0), none⟩ :=
  ⟨(claim_C10_link_color_precondition graph_missing_color (1, 1) 0 "a"
        ⟨(0, 0), none⟩).2.1
      [("b", "a", none)] ("a", "b", some "topic") [] rfl
      (by decide) (by decide),
   (claim_C10_link_color_precondition graph_missing_color (1, 1) 0 "a"
        ⟨(0, 0), none⟩).2.2 rfl⟩

lemma heap_update_y_self (a : ℕ) :
    ∀ h : List (ℕ × (ℚ × ℚ)),
      alist_lookup a (heap_update_y a h) =
        (alist_lookup a h).map (fun p => (p.1, 1 - p.2)) := by
  intro h
  induction h with
  | nil => simp [heap_update_y, alist_lookup]
  | cons q rest ih =>
      obtain ⟨b, p⟩ := q
      by_cases hb : b = a
      · subst hb; simp [heap_update_y, alist_lookup]
      · simp [heap_update_y, alist_lookup, hb, ih]

lemma heap_update_y_ne (a b : ℕ) (hne : b ≠ a) :
    ∀ h : List (ℕ × (ℚ × ℚ)),
      alist_lookup a (heap_update_y b h) = alist_lookup a h := by
  intro h
  induction h with
  | nil => simp [heap_update_y]
  | cons q rest ih =>
      obtain ⟨d, p⟩ := q
      by_cases hd : d = b
      · subst hd
        simp [heap_update_y, alist_lookup, hne]
      · by_cases ha : d = a
        · subst ha; simp [heap_update_y, alist_lookup, hd]
        · simp [heap_update_y, alist_lookup, hd, ha, ih]

lemma reverse_y_loop_not_mem (a : ℕ) :
    ∀ (ns : List (String × ℕ)) (h : List (ℕ × (ℚ × ℚ))),
      a ∉ ns.map Prod.snd →
      alist_lookup a (reverse_y_loop ns h) = alist_lookup a h := by
  intro ns
  induction ns with
  | nil => intro h _; rfl
  | cons q rest ih =>
      obtain ⟨n, b⟩ := q
      intro h hmem
      rw [List.map_cons] at hmem
      have hb : b ≠ a := fun he => hmem (he ▸ List.mem_cons_self _ _)
      have hrest : a ∉ rest.map Prod.snd :=
        fun hr => hmem (List.mem_cons_of_mem _ hr)
      rw [reverse_y_loop, ih _ hrest, heap_update_y_ne a b hb]

lemma reverse_y_loop_mem (a : ℕ) :
    ∀ (ns : List (String × ℕ)) (hp : List (ℕ × (ℚ × ℚ))),
      (ns.map Prod.snd).Nodup → (∃ n, (n, a) ∈ ns) →
      alist_lookup a (reverse_y_loop ns hp) =
        (alist_lookup a hp).map (fun p => (p.1, 1 - p.2)) := by
  intro ns
  induction ns with
  | nil => rintro hp _ ⟨n, hn⟩; simp at hn
  | cons q rest ih =>
      obtain ⟨n0, b⟩ := q
      rintro hp hnodup ⟨n, hn⟩
      rw [List.map_cons, List.nodup_cons] at hnodup
      rcases List.mem_cons.mp hn with hn | hn
      · obtain ⟨-, hb⟩ := Prod.mk.inj hn
        subst hb
        rw [reverse_y_loop,
          reverse_y_loop_not_mem a rest _ hnodup.1,
          heap_update_y_self]
      · have hb : b ≠ a := by
          intro he
          subst he
          exact hnodup.1 (List.mem_map.mpr ⟨(n, b), hn, rfl⟩)
        rw [reverse_y_loop, ih _ hnodup.2 ⟨n, hn⟩, heap_update_y_ne a b hb]

/-- C8: `_cb_create_graph` is not side-effect-free on the graph state: the
`pos` dictionary it builds holds the same position-list objects (heap
addresses) as the graph storage, the y-reversal writes through that
alias, and after the call every node's stored y-coordinate equals
`1 -` the y it had when the graph was loaded (the node set itself is
unchanged).  The hypothesis that addresses are pairwise distinct reflects
that each node stores its own list object. -/
theorem claim_C8_export_flips_y (graph_type output : String) (g : HeapGraph)
    (hnodup : (g.nodes.map Prod.snd).Nodup)
    (name : String) (a : ℕ) (hmem : (name, a) ∈ g.nodes)
    (x y : ℚ) (hpos : alist_lookup a g.heap = some (x, y)) :
    alist_lookup a (cb_create_graph graph_type output g).1.heap =
      some (x, 1 - y) ∧
    (cb_create_graph graph_type output g).1.nodes = g.nodes := by
  constructor
  · show alist_lookup a (reverse_y_loop g.nodes g.heap) = _
    rw [reverse_y_loop_mem a g.nodes g.heap hnodup ⟨name, hmem⟩, hpos]
    rfl
  · rfl

/-- C8 witness: a one-node graph whose position list at address 0 holds
`(2, 5)`; after the export the stored position is `(2, 1 - 5)`. -/
theorem claim_C8_export_flips_y_witness :
    alist_lookup 0
        (cb_create_graph "node:matplotlib" "out.svg"
          ⟨[("a", 0)], [(0, ((2 : ℚ), (5 : ℚ)))]⟩).1.heap =
      some ((2 : ℚ), 1 - (5 : ℚ)) :=
  (claim_C8_export_flips_y "node:matplotlib" "out.svg"
      ⟨[("a", 0)], [(0, ((2 : ℚ), (5 : ℚ)))]⟩
      (by decide) "a" 0 (List.mem_singleton_self _)
      2 5 (by decide)).1

end GraphView
